import Mathlib

/-!
Verification development for the personal finance manager (`src/project.py`).

The program stores transactions and budgets in SQLite.  Amounts (SQLite
REAL) are modelled as rationals, rows as Lean structures, tables as lists.
Dates are stored as TEXT and compared by SQLite with memcmp (binary
collation); we model date strings as lists of characters and the SQL
comparisons `date >= ?`, `date <= ?`, `BETWEEN`, `ORDER BY date DESC`
with an explicit byte-wise comparison `goLe`.

Date validation in the source is `datetime.datetime.strptime(s, '%Y-%m-%d')`.
CPython's `_strptime` compiles this format to the regular expression
`(?P<Y>\d\d\d\d)\-(?P<m>1[0-2]|0[1-9]|[1-9])\-(?P<d>3[01]|[12]\d|0[1-9]|[1-9])`
matched against the whole string, and then builds a `datetime`, which
additionally requires `1 <= year` and `day <= days-in-month(year, month)`
(`year <= 9999` is implied by the four-digit year).  In particular
non-zero-padded forms such as "2024-2-1" are accepted.  `parseDate` below
implements exactly this.
-/

namespace Finance

/-- memcmp-style comparison of character lists (`a ≤ b`), as SQLite's BINARY
collation compares TEXT values; all stored dates are ASCII. -/
def goLe : List Char → List Char → Bool
  | [], _ => true
  | _ :: _, [] => false
  | a :: as, b :: bs =>
    if a.toNat < b.toNat then true
    else if b.toNat < a.toNat then false
    else goLe as bs

/-- SQLite TEXT comparison `a <= b`. -/
def strLeB (a b : String) : Bool := goLe a.data b.data

/-- The ASCII digit character for `n < 10`. -/
def digitChar (n : Nat) : Char := Char.ofNat (48 + n)

/-- Decimal digits of `n`, accumulator form (Python `str` on a nonnegative
int).  The first argument is structural-recursion fuel; `natDigits` passes
`n` itself, which bounds the digit count, so the fuel never runs out. -/
def natDigitsAux : Nat → Nat → List Char → List Char
  | 0, n, acc => digitChar n :: acc
  | fuel + 1, n, acc =>
    if n < 10 then digitChar n :: acc
    else natDigitsAux fuel (n / 10) (digitChar (n % 10) :: acc)

/-- Decimal representation of a natural number, no padding. -/
def natDigits (n : Nat) : List Char := natDigitsAux n n []

/-- Python `str` of an int (as used in the f-string `f"{year}-..."`). -/
def intStr (i : Int) : List Char :=
  if i < 0 then '-' :: natDigits i.natAbs else natDigits i.natAbs

/-- Python `f"{i:02d}"`: zero-pad to width 2 (only single nonnegative digits
actually get a pad; negative numbers keep their sign). -/
def fmt02 (i : Int) : List Char :=
  if 0 ≤ i ∧ i < 10 then '0' :: natDigits i.natAbs else intStr i

/-- Two-digit zero-padded form of `n ≤ 99`. -/
def dig2 (n : Nat) : List Char := [digitChar (n / 10), digitChar (n % 10)]

/-- Four-digit zero-padded form of `n ≤ 9999`. -/
def dig4 (n : Nat) : List Char := dig2 (n / 100) ++ dig2 (n % 100)

/-- The canonical zero-padded `YYYY-MM-DD` character string of a date. -/
def dateChars (y m d : Nat) : List Char := dig4 y ++ '-' :: dig2 m ++ '-' :: dig2 d

/-- Gregorian leap year (as `calendar`/`datetime` use). -/
def isLeap (y : Nat) : Bool := (y % 4 == 0 && y % 100 != 0) || y % 400 == 0

/-- Number of days of month `m` of year `y`. -/
def daysInMonth (y m : Nat) : Nat :=
  if m = 2 then (if isLeap y then 29 else 28)
  else if m = 4 ∨ m = 6 ∨ m = 9 ∨ m = 11 then 30
  else 31

/-- Model of `datetime.date(y, m, d) - datetime.timedelta(days=1)` on the proleptic
Gregorian calendar. -/
def predDate : Nat × Nat × Nat → Nat × Nat × Nat
  | (y, m, d) =>
    if 2 ≤ d then (y, m, d - 1)
    else if 2 ≤ m then (y, m - 1, daysInMonth y (m - 1))
    else (y - 1, 12, 31)

/-- Model of `date.strftime('%Y-%m-%d')` for dates with years in `1000..9999` (the
only range the theorems below use; below 1000 the width of `%Y` is
platform-dependent in CPython). -/
def fmtYmd : Nat × Nat × Nat → List Char
  | (y, m, d) => dateChars y m d

/-- A digit character, with its value. -/
def digitVal (c : Char) : Option Nat :=
  if 48 ≤ c.toNat ∧ c.toNat ≤ 57 then some (c.toNat - 48) else none

/-- The `%Y` lexeme: exactly four digits. -/
def year4 (a b c d : Char) : Option Nat :=
  match digitVal a, digitVal b, digitVal c, digitVal d with
  | some w, some x, some y, some z => some (w * 1000 + x * 100 + y * 10 + z)
  | _, _, _, _ => none

/-- The one-character `[1-9]` alternative of the `%m` and `%d` lexemes. -/
def num1 (c : Char) : Option Nat :=
  if 49 ≤ c.toNat ∧ c.toNat ≤ 57 then some (c.toNat - 48) else none

/-- The two-character alternatives `1[0-2]|0[1-9]` of the `%m` lexeme. -/
def month2 (a b : Char) : Option Nat :=
  if a = '0' then num1 b
  else if a = '1' ∧ 48 ≤ b.toNat ∧ b.toNat ≤ 50 then some (10 + (b.toNat - 48))
  else none

/-- The two-character alternatives `3[01]|[12]\d|0[1-9]` of the `%d` lexeme. -/
def day2 (a b : Char) : Option Nat :=
  if a = '0' then num1 b
  else if a = '1' ∨ a = '2' then
    match digitVal b with
    | some v => some ((a.toNat - 48) * 10 + v)
    | none => none
  else if a = '3' ∧ (b = '0' ∨ b = '1') then some (30 + (b.toNat - 48))
  else none

/-- The `datetime` constructor's calendar check on the lexed fields
(month and day ranges are already enforced by the lexemes). -/
def mkDate (y m d : Nat) : Option (Nat × Nat × Nat) :=
  if 1 ≤ y ∧ d ≤ daysInMonth y m then some (y, m, d) else none

/-- Combine the three lexed fields through the `datetime` constructor. -/
def mk3 : Option Nat → Option Nat → Option Nat → Option (Nat × Nat × Nat)
  | some y, some m, some d => mkDate y m d
  | _, _, _ => none

/-- Model of `datetime.datetime.strptime(s, '%Y-%m-%d')`, returning the parsed
`(year, month, day)`; `none` models the `ValueError`.  A full match of the
compiled format regex has one of the four shapes `\d{4}-\d{1,2}-\d{1,2}`
(lengths 8, 9, 9, 10), distinguished by the positions of the two dashes;
a one-digit month takes the first length-9 shape, and in every shape the
lexeme checks reject any remaining non-digit characters. -/
def parseDate (s : String) : Option (Nat × Nat × Nat) :=
  match s.data with
  | [a, b, c, d, g1, m, g2, e] =>
      if g1 = '-' ∧ g2 = '-' then mk3 (year4 a b c d) (num1 m) (num1 e) else none
  | [a, b, c, d, g1, p, q, r, e] =>
      if g1 = '-' ∧ q = '-' then mk3 (year4 a b c d) (num1 p) (day2 r e)
      else if g1 = '-' ∧ r = '-' then mk3 (year4 a b c d) (month2 p q) (num1 e)
      else none
  | [a, b, c, d, g1, p, q, g2, e, f] =>
      if g1 = '-' ∧ q = '-' then none
      else if g1 = '-' ∧ g2 = '-' then mk3 (year4 a b c d) (month2 p q) (day2 e f)
      else none
  | _ => none

/-- Source `TransactionManager._validate_date`. -/
def validate_date (s : String) : Bool := (parseDate s).isSome

/-- A date string is canonical when it is valid and zero-padded, i.e. it is
the `YYYY-MM-DD` rendering of its own parse. -/
def isPadded (s : String) : Bool :=
  match parseDate s with
  | some (y, m, d) => s.data == dateChars y m d
  | none => false

/-! ### Data model: rows of the three tables -/

/-- A row of the `transactions` table. -/
structure Txn where
  id : Nat
  user_id : Nat
  ttype : String
  category : String
  amount : Rat
  date : String
  description : String
deriving DecidableEq, Repr

/-- A row of the `budgets` table (the row id plays no role). -/
structure BudgetRow where
  user_id : Nat
  category : String
  amount : Rat
  month : Int
  year : Int
deriving DecidableEq, Repr

/-- The database: registered user ids, the two data tables, and the next
AUTOINCREMENT transaction id. -/
structure DB where
  users : List Nat
  transactions : List Txn
  budgets : List BudgetRow
  nextTxnId : Nat
deriving DecidableEq, Repr

def transaction_types : List String := ["income", "expense"]

def incomeCategories : List String :=
  ["Salary", "Freelance", "Investments", "Gift", "Other Income"]

def expenseCategories : List String :=
  ["Food", "Rent", "Utilities", "Transport", "Entertainment",
   "Shopping", "Health", "Education", "Other Expense"]

/-- Source `self.categories[trans_type]` (only looked up for valid types). -/
def categoriesFor (t : String) : List String :=
  if t = "income" then incomeCategories
  else if t = "expense" then expenseCategories
  else []

/-! ### TransactionManager -/

/-- Source `TransactionManager.add_transaction`: returns the success flag and the
resulting database state. -/
def add_transaction (db : DB) (user_id : Nat) (trans_type category : String)
    (amount : Rat) (date_str description : String) : Bool × DB :=
  if trans_type ∉ transaction_types then (false, db)
  else if category ∉ categoriesFor trans_type then (false, db)
  else if amount ≤ 0 then (false, db)
  else if ¬ validate_date date_str then (false, db)
  else
    (true, { db with
      transactions := db.transactions ++
        [⟨db.nextTxnId, user_id, trans_type, category, amount, date_str, description⟩],
      nextTxnId := db.nextTxnId + 1 })

/-- Query `SELECT id, type FROM transactions WHERE id = ? AND user_id = ?`
(first matching row). -/
def findTxn (db : DB) (transaction_id user_id : Nat) : Option Txn :=
  db.transactions.find? (fun t => t.id == transaction_id && t.user_id == user_id)

/-- Source `TransactionManager.update_transaction`. -/
def update_transaction (db : DB) (user_id transaction_id : Nat)
    (trans_type category : String) (amount : Rat) (date_str description : String) :
    Bool × DB :=
  match findTxn db transaction_id user_id with
  | none => (false, db)
  | some t =>
    if t.ttype ≠ trans_type then (false, db)
    else if category ∉ categoriesFor trans_type then (false, db)
    else if amount ≤ 0 then (false, db)
    else if ¬ validate_date date_str then (false, db)
    else
      (true, { db with
        transactions := db.transactions.map (fun u =>
          if u.id == transaction_id && u.user_id == user_id then
            { u with category := category, amount := amount,
                     date := date_str, description := description }
          else u) })

/-- Source `TransactionManager.delete_transaction`: `DELETE ... WHERE id = ? AND
user_id = ?`, success iff `rowcount > 0`. -/
def delete_transaction (db : DB) (user_id transaction_id : Nat) : Bool × DB :=
  (db.transactions.any (fun t => t.id == transaction_id && t.user_id == user_id),
   { db with transactions :=
      db.transactions.filter (fun t => !(t.id == transaction_id && t.user_id == user_id)) })

/-- The WHERE clause built by `get_transactions`: user id always; the type
filter is added only when the argument is truthy and a known type; each date
filter is added only when the argument is truthy and passes
`_validate_date` (`""` is falsy and also fails validation, so the truthiness
test is subsumed). -/
def txMatch (user_id : Nat) (tyf sdf edf : Option String) (t : Txn) : Bool :=
  t.user_id == user_id &&
  (match tyf with
   | some ty => if ty ∈ transaction_types then t.ttype == ty else true
   | none => true) &&
  (match sdf with
   | some sd => if validate_date sd then strLeB sd t.date else true
   | none => true) &&
  (match edf with
   | some ed => if validate_date ed then strLeB t.date ed else true
   | none => true)

/-- Ordering `ORDER BY date DESC` on the binary collation. -/
def dateDescOrder (a b : Txn) : Prop := strLeB b.date a.date = true

instance : DecidableRel dateDescOrder := fun a b => decEq _ _

/-- Source `TransactionManager.get_transactions`. -/
def get_transactions (db : DB) (user_id : Nat) (tyf sdf edf : Option String) :
    List Txn :=
  List.insertionSort dateDescOrder (db.transactions.filter (txMatch user_id tyf sdf edf))

/-! ### BudgetManager -/

/-- The uniqueness key `(user_id, category, month, year)` of the budgets
table. -/
def budgetKey (user_id : Nat) (category : String) (month year : Int)
    (b : BudgetRow) : Bool :=
  b.user_id == user_id && b.category == category && b.month == month && b.year == year

/-- Source `BudgetManager.set_budget`.  `INSERT OR REPLACE` first deletes every row
conflicting on the unique key, then inserts; inserting
`(SELECT id FROM users WHERE id = ?)` for an unknown user id yields NULL and
the NOT NULL constraint makes the statement fail. -/
def set_budget (db : DB) (user_id : Nat) (category : String) (amount : Rat)
    (month year : Int) : Bool × DB :=
  if category ∉ expenseCategories then (false, db)
  else if amount < 0 then (false, db)
  else if ¬ (1 ≤ month ∧ month ≤ 12) ∨ ¬ (1900 ≤ year ∧ year ≤ 2100) then (false, db)
  else if user_id ∉ db.users then (false, db)
  else
    (true, { db with budgets :=
      db.budgets.filter (fun b => !budgetKey user_id category month year b) ++
        [⟨user_id, category, amount, month, year⟩] })

/-- Source `BudgetManager.get_budget`. -/
def get_budget (db : DB) (user_id : Nat) (category : String) (month year : Int) :
    Rat :=
  match db.budgets.find? (budgetKey user_id category month year) with
  | some b => b.amount
  | none => 0

/-- Start-of-month string `f"{year}-{month:02d}-01"`. -/
def monthStartChars (month year : Int) : List Char :=
  intStr year ++ '-' :: fmt02 month ++ ['-', '0', '1']

/-- The end date string of `get_expenses_for_category_in_month`: the literal
`f"{year}-12-31"` for December, otherwise
`(date(year, month+1, 1) - timedelta(days=1)).strftime('%Y-%m-%d')`.
(For arguments outside `datetime`'s ranges the Python `date` constructor
raises; the model is total and is only used on in-range arguments.) -/
def monthEndChars (month year : Int) : List Char :=
  if month = 12 then intStr year ++ ['-', '1', '2', '-', '3', '1']
  else fmtYmd (predDate (year.toNat, month.toNat + 1, 1))

/-- The WHERE clause of the expense-sum query:
`user_id = ? AND type = 'expense' AND category = ? AND date BETWEEN ? AND ?`. -/
def expenseMatch (user_id : Nat) (category : String) (startC endC : List Char)
    (t : Txn) : Bool :=
  t.user_id == user_id && t.ttype == "expense" && t.category == category &&
  goLe startC t.date.data && goLe t.date.data endC

/-- SQL `SUM` over a result column: NULL (`none`) over no rows. -/
def sumRows (l : List Rat) : Option Rat := if l.isEmpty then none else some l.sum

/-- Source `BudgetManager.get_expenses_for_category_in_month`; the final match is
the guard `result[0] if result and result[0] is not None else 0.0`. -/
def get_expenses_for_category_in_month (db : DB) (user_id : Nat)
    (category : String) (month year : Int) : Rat :=
  let startC := monthStartChars month year
  let endC := monthEndChars month year
  match sumRows ((db.transactions.filter
      (expenseMatch user_id category startC endC)).map Txn.amount) with
  | some v => v
  | none => 0

/-- Source `BudgetManager.check_budget_exceeded` (the early `return []` for no
budgets coincides with the loop over the empty list). -/
def check_budget_exceeded (db : DB) (user_id : Nat) (month year : Int) :
    List (String × Rat × Rat × Rat) :=
  (db.budgets.filter (fun b =>
      b.user_id == user_id && b.month == month && b.year == year)).filterMap
    (fun b =>
      let spent := get_expenses_for_category_in_month db user_id b.category month year
      if b.amount < spent then some (b.category, spent, b.amount, spent - b.amount)
      else none)

/-! ### ReportManager.generate_yearly_report -/

/-- The quantities the yearly report computes and prints. -/
structure YearlyReport where
  total_income_year : Rat
  total_expense_year : Rat
  income_by_month : List (Nat × Rat)
  expense_by_month : List (Nat × Rat)
  annual_savings : Rat
deriving DecidableEq, Repr

/-- Update `d[k] += v` on a Python dict rendered as an association list (insertion
order preserved; a missing key would raise `KeyError` in Python and is never
hit because every processed date parses with month in `1..12`). -/
def dictAdd (k : Nat) (v : Rat) : List (Nat × Rat) → List (Nat × Rat)
  | [] => []
  | p :: rest => if p.1 == k then (p.1, p.2 + v) :: rest else p :: dictAdd k v rest

/-- Initial dict `{i: 0.0 for i in range(1, 13)}`. -/
def initMonths : List (Nat × Rat) := (List.range 12).map (fun i => (i + 1, 0))

/-- One iteration of the report's aggregation loop over
`(total_income, total_expense, income_by_month, expense_by_month)`;
`strptime` on an unparsable stored date raises in Python (modelled as a
skip, never hit on valid dates). -/
def yearlyStep (acc : Rat × Rat × List (Nat × Rat) × List (Nat × Rat)) (t : Txn) :
    Rat × Rat × List (Nat × Rat) × List (Nat × Rat) :=
  match parseDate t.date with
  | none => acc
  | some (_, m, _) =>
    if t.ttype == "income" then
      (acc.1 + t.amount, acc.2.1, dictAdd m t.amount acc.2.2.1, acc.2.2.2)
    else if t.ttype == "expense" then
      (acc.1, acc.2.1 + t.amount, acc.2.2.1, dictAdd m t.amount acc.2.2.2)
    else acc

/-- Source `ReportManager.generate_yearly_report`: fetches
`get_transactions(user_id, None, f"{year}-01-01", f"{year}-12-31")` and
aggregates. -/
def generate_yearly_report (db : DB) (user_id : Nat) (year : Int) : YearlyReport :=
  let startS : String := ⟨intStr year ++ ['-', '0', '1', '-', '0', '1']⟩
  let endS : String := ⟨intStr year ++ ['-', '1', '2', '-', '3', '1']⟩
  let txns := get_transactions db user_id none (some startS) (some endS)
  let res := txns.foldl yearlyStep (0, 0, initMonths, initMonths)
  ⟨res.1, res.2.1, res.2.2.1, res.2.2.2, res.1 - res.2.1⟩

/-! ### Specification-side predicates (the claims' calendar reading) -/

/-- The parsed calendar date of `s` lies in the given month and year. -/
def dateInMonthB (s : String) (month year : Int) : Bool :=
  match parseDate s with
  | some (y, m, _) => ((y : Int) == year) && ((m : Int) == month)
  | none => false

/-- The parsed calendar date of `s` lies in the given year. -/
def dateInYearB (s : String) (year : Int) : Bool :=
  match parseDate s with
  | some (y, _, _) => (y : Int) == year
  | none => false

/-- Numeric encoding of a parsed date, ordering calendar dates. -/
def tripleVal (p : Nat × Nat × Nat) : Nat := p.1 * 10000 + p.2.1 * 100 + p.2.2

/-- Holds when `a` is on or after `b` in calendar time (both dates valid). -/
def calNewerEq (a b : String) : Bool :=
  match parseDate a, parseDate b with
  | some p, some q => tripleVal q ≤ tripleVal p
  | _, _ => false

/-! ### Order properties of the binary string comparison -/

theorem goLe_refl (l : List Char) : goLe l l = true := by
  induction l with
  | nil => rfl
  | cons a as ih => simp [goLe, ih]

theorem goLe_total (a b : List Char) : goLe a b = true ∨ goLe b a = true := by
  induction a generalizing b with
  | nil => exact Or.inl rfl
  | cons x xs ih =>
    cases b with
    | nil => exact Or.inr rfl
    | cons y ys =>
      by_cases h1 : x.toNat < y.toNat
      · exact Or.inl (by simp [goLe, h1])
      · by_cases h2 : y.toNat < x.toNat
        · exact Or.inr (by simp [goLe, h2])
        · rcases ih ys with h | h
          · exact Or.inl (by simp [goLe, h1, h2, h])
          · exact Or.inr (by simp [goLe, h1, h2, h])

theorem goLe_trans {a b c : List Char} (h1 : goLe a b = true) (h2 : goLe b c = true) :
    goLe a c = true := by
  induction a generalizing b c with
  | nil => rfl
  | cons x xs ih =>
    cases b with
    | nil => simp [goLe] at h1
    | cons y ys =>
      cases c with
      | nil => simp [goLe] at h2
      | cons z zs =>
        by_cases hxy : x.toNat < y.toNat
        · by_cases hyz : y.toNat < z.toNat
          · simp [goLe, Nat.lt_trans hxy hyz]
          · by_cases hzy : z.toNat < y.toNat
            · simp [goLe, hyz, hzy] at h2
            · have hxz : x.toNat < z.toNat := by omega
              simp [goLe, hxz]
        · by_cases hyx : y.toNat < x.toNat
          · simp [goLe, hxy, hyx] at h1
          · by_cases hyz : y.toNat < z.toNat
            · have hxz : x.toNat < z.toNat := by omega
              simp [goLe, hxz]
            · by_cases hzy : z.toNat < y.toNat
              · simp [goLe, hyz, hzy] at h2
              · have h1' : goLe xs ys = true := by simpa [goLe, hxy, hyx] using h1
                have h2' : goLe ys zs = true := by simpa [goLe, hyz, hzy] using h2
                have hxz : ¬ x.toNat < z.toNat := by omega
                have hzx : ¬ z.toNat < x.toNat := by omega
                simp [goLe, hxz, hzx, ih h1' h2']

theorem goLe_cons_same (c : Char) (s t : List Char) :
    goLe (c :: s) (c :: t) = goLe s t := by
  simp [goLe]

/-! ### Digit strings and their lexicographic comparison -/

theorem digitChar_toNat {n : Nat} (h : n < 10) : (digitChar n).toNat = 48 + n := by
  interval_cases n <;> decide

/-- Two-digit zero-padded numbers compare lexicographically as numbers;
ties defer to the tails. -/
theorem twoDigLe {a b : Nat} (ha : a ≤ 99) (hb : b ≤ 99) (s t : List Char) :
    goLe (dig2 a ++ s) (dig2 b ++ t) =
      (if a < b then true else if b < a then false else goLe s t) := by
  have h1 : a / 10 < 10 := by omega
  have h2 : a % 10 < 10 := by omega
  have h3 : b / 10 < 10 := by omega
  have h4 : b % 10 < 10 := by omega
  simp only [dig2, List.cons_append, List.nil_append, goLe,
    digitChar_toNat h1, digitChar_toNat h2, digitChar_toNat h3, digitChar_toNat h4]
  split_ifs <;> first | rfl | omega

/-- Four-digit zero-padded numbers compare lexicographically as numbers;
ties defer to the tails. -/
theorem fourDigLe {a b : Nat} (ha : a ≤ 9999) (hb : b ≤ 9999) (s t : List Char) :
    goLe (dig4 a ++ s) (dig4 b ++ t) =
      (if a < b then true else if b < a then false else goLe s t) := by
  simp only [dig4, List.append_assoc]
  rw [twoDigLe (by omega) (by omega), twoDigLe (by omega) (by omega)]
  split_ifs <;> first | rfl | omega

theorem natDigitsAux_small {fuel n : Nat} (acc : List Char) (h : n < 10) :
    natDigitsAux fuel n acc = digitChar n :: acc := by
  cases fuel with
  | zero => rfl
  | succ fuel => rw [natDigitsAux, if_pos h]

theorem natDigitsAux_ge_fuel {fuel n : Nat} (acc : List Char) (h : 10 ≤ n)
    (hf : n ≤ fuel) :
    natDigitsAux fuel n acc =
      natDigitsAux (fuel - 1) (n / 10) (digitChar (n % 10) :: acc) := by
  cases fuel with
  | zero => omega
  | succ fuel =>
    rw [natDigitsAux, if_neg (by omega)]
    rfl

theorem natDigits_one {n : Nat} (h : n < 10) : natDigits n = [digitChar n] :=
  natDigitsAux_small [] h

theorem natDigits_two {n : Nat} (h1 : 10 ≤ n) (h2 : n ≤ 99) : natDigits n = dig2 n := by
  unfold natDigits
  rw [natDigitsAux_ge_fuel [] h1 (Nat.le_refl n), natDigitsAux_small _ (by omega)]
  rfl

theorem natDigits_four {n : Nat} (h1 : 1000 ≤ n) (h2 : n ≤ 9999) :
    natDigits n = dig4 n := by
  unfold natDigits
  rw [natDigitsAux_ge_fuel [] (by omega) (Nat.le_refl n),
    natDigitsAux_ge_fuel _ (by omega) (by omega),
    natDigitsAux_ge_fuel _ (by omega) (by omega),
    natDigitsAux_small _ (by omega)]
  have e1 : n / 10 / 10 / 10 = n / 100 / 10 := by omega
  have e2 : n / 10 / 10 % 10 = n / 100 % 10 := by omega
  have e3 : n / 10 % 10 = n % 100 / 10 := by omega
  have e4 : n % 10 = n % 100 % 10 := by omega
  rw [e1, e2, e3, e4]
  rfl

theorem intStr_nonneg {i : Int} (h : 0 ≤ i) : intStr i = natDigits i.toNat := by
  unfold intStr
  have : ¬ i < 0 := by omega
  have e : i.natAbs = i.toNat := by omega
  rw [if_neg this, e]

theorem fmt02_eq_dig2 {i : Int} (h1 : 0 ≤ i) (h2 : i ≤ 99) :
    fmt02 i = dig2 i.toNat := by
  unfold fmt02
  by_cases h : 0 ≤ i ∧ i < 10
  · rw [if_pos h]
    have e : i.natAbs = i.toNat := by omega
    rw [e, natDigits_one (by omega)]
    have e1 : i.toNat / 10 = 0 := by omega
    have e2 : i.toNat % 10 = i.toNat := by omega
    simp [dig2, e1, e2]
    decide
  · rw [if_neg h, intStr_nonneg h1, natDigits_two (by omega) (by omega)]

theorem twoDigLeNil {a b : Nat} (ha : a ≤ 99) (hb : b ≤ 99) :
    goLe (dig2 a) (dig2 b) =
      (if a < b then true else if b < a then false else true) := by
  have h := twoDigLe ha hb [] []
  simpa [goLe] using h

/-! ### The month-range date strings -/

theorem daysInMonth_le (y m : Nat) : daysInMonth y m ≤ 31 := by
  unfold daysInMonth
  split_ifs <;> omega

theorem daysInMonth_ge (y m : Nat) : 28 ≤ daysInMonth y m := by
  unfold daysInMonth
  split_ifs <;> omega

theorem daysInMonth_twelve (y : Nat) : daysInMonth y 12 = 31 := by
  simp [daysInMonth]

theorem predDate_first {y m : Nat} (h : 1 ≤ m) :
    predDate (y, m + 1, 1) = (y, m, daysInMonth y m) := by
  have h2 : 2 ≤ m + 1 := by omega
  simp [predDate, h2]

/-- Computing `date(y+1, 1, 1) - timedelta(days=1)` is 31 December of year `y`: the
source's literal `f"{year}-12-31"` shortcut for December agrees with the
first-of-next-month-minus-one-day rule it uses for the other months. -/
theorem predDate_january (y : Nat) : predDate (y + 1, 1, 1) = (y, 12, 31) := by
  simp [predDate]

theorem monthStart_eq {M Y : Int} (hM1 : 1 ≤ M) (hM2 : M ≤ 12)
    (hY1 : 1000 ≤ Y) (hY2 : Y ≤ 9999) :
    monthStartChars M Y = dateChars Y.toNat M.toNat 1 := by
  unfold monthStartChars dateChars
  rw [intStr_nonneg (by omega), natDigits_four (by omega) (by omega),
    fmt02_eq_dig2 (by omega) (by omega)]
  have e : dig2 1 = ['0', '1'] := by decide
  rw [e]

theorem monthEnd_eq {M Y : Int} (hM1 : 1 ≤ M) (hM2 : M ≤ 12)
    (hY1 : 1000 ≤ Y) (hY2 : Y ≤ 9999) :
    monthEndChars M Y = dateChars Y.toNat M.toNat (daysInMonth Y.toNat M.toNat) := by
  unfold monthEndChars
  by_cases h : M = 12
  · rw [if_pos h, intStr_nonneg (by omega), natDigits_four (by omega) (by omega)]
    subst h
    have e12 : (12 : Int).toNat = 12 := rfl
    rw [e12]
    unfold dateChars
    rw [daysInMonth_twelve]
    have e1 : dig2 12 = ['1', '2'] := by decide
    have e2 : dig2 31 = ['3', '1'] := by decide
    rw [e1, e2]
    simp
  · rw [if_neg h]
    have hstep : predDate (Y.toNat, M.toNat + 1, 1) =
        (Y.toNat, M.toNat, daysInMonth Y.toNat M.toNat) := predDate_first (by omega)
    rw [hstep]
    rfl

/-- The stored date string of a canonical date `(y, m, d)` lies between the
query's start and end strings exactly when `(y, m)` is the queried
month (`L` is the last day of that month, and `hsame` supplies
`d ≤ L` in the only branch that needs it). -/
theorem betweenIff {Y M L y m d : Nat} (hY : Y ≤ 9999) (hM : M ≤ 99) (hL : L ≤ 99)
    (hy : y ≤ 9999) (hm : m ≤ 99) (hd1 : 1 ≤ d) (hd : d ≤ 99)
    (hsame : y = Y → m = M → d ≤ L) :
    (goLe (dateChars Y M 1) (dateChars y m d) &&
      goLe (dateChars y m d) (dateChars Y M L)) = (y == Y && m == M) := by
  unfold dateChars
  simp only [List.append_assoc, List.cons_append]
  simp only [fourDigLe hY hy, fourDigLe hy hY, goLe_cons_same,
    twoDigLe hM hm, twoDigLe hm hM, twoDigLeNil (by omega : (1 : Nat) ≤ 99) hd,
    twoDigLeNil hd hL]
  rw [Bool.eq_iff_iff]
  simp only [Bool.and_eq_true, beq_iff_eq]
  by_cases hyY : y = Y
  · by_cases hmM : m = M
    · have hdL : d ≤ L := hsame hyY hmM
      subst hyY
      subst hmM
      split_ifs <;> (try simp_all) <;> omega
    · split_ifs <;> (try simp_all) <;> omega
  · split_ifs <;> (try simp_all) <;> omega

/-- On canonical date strings the binary string order is the calendar
order. -/
theorem canonLe_iff {y1 m1 d1 y2 m2 d2 : Nat} (h1 : y1 ≤ 9999) (h2 : m1 ≤ 99)
    (h3 : d1 ≤ 99) (h4 : y2 ≤ 9999) (h5 : m2 ≤ 99) (h6 : d2 ≤ 99) :
    (goLe (dateChars y1 m1 d1) (dateChars y2 m2 d2) = true) ↔
      tripleVal (y1, m1, d1) ≤ tripleVal (y2, m2, d2) := by
  unfold dateChars tripleVal
  simp only [List.append_assoc, List.cons_append]
  simp only [fourDigLe h1 h4, goLe_cons_same, twoDigLe h2 h5, twoDigLeNil h3 h6]
  split_ifs <;> simp <;> omega

/-! ### Facts about the date parser -/

theorem digitVal_some {c : Char} {v : Nat} (h : digitVal c = some v) : v ≤ 9 := by
  unfold digitVal at h
  split_ifs at h with hc
  simp only [Option.some.injEq] at h
  omega

theorem num1_some {c : Char} {v : Nat} (h : num1 c = some v) : 1 ≤ v ∧ v ≤ 9 := by
  unfold num1 at h
  split_ifs at h with hc
  simp only [Option.some.injEq] at h
  omega

theorem month2_some {a b : Char} {v : Nat} (h : month2 a b = some v) :
    1 ≤ v ∧ v ≤ 12 := by
  unfold month2 at h
  split_ifs at h with h1 h2
  · have := num1_some h
    omega
  · simp only [Option.some.injEq] at h
    omega

theorem day2_some {a b : Char} {v : Nat} (h : day2 a b = some v) :
    1 ≤ v ∧ v ≤ 31 := by
  unfold day2 at h
  split_ifs at h with h1 h2 h3
  · have := num1_some h
    omega
  · split at h
    · rename_i w hw
      simp only [Option.some.injEq] at h
      have hw9 := digitVal_some hw
      have e1 : ('1').toNat = 49 := rfl
      have e2 : ('2').toNat = 50 := rfl
      rcases h2 with h2 | h2 <;> subst h2 <;> omega
    · cases h
  · simp only [Option.some.injEq] at h
    have e0 : ('0').toNat = 48 := rfl
    have e1 : ('1').toNat = 49 := rfl
    rcases h3.2 with hb | hb <;> subst hb <;> omega

theorem year4_some {a b c d : Char} {v : Nat} (h : year4 a b c d = some v) :
    v ≤ 9999 := by
  unfold year4 at h
  split at h
  · rename_i w x y z hw hx hy hz
    simp only [Option.some.injEq] at h
    have := digitVal_some hw
    have := digitVal_some hx
    have := digitVal_some hy
    have := digitVal_some hz
    omega
  · cases h

theorem mkDate_some {y m d : Nat} {p : Nat × Nat × Nat} (h : mkDate y m d = some p) :
    p = (y, m, d) ∧ 1 ≤ y ∧ d ≤ daysInMonth y m := by
  unfold mkDate at h
  split_ifs at h with hc
  simp only [Option.some.injEq] at h
  exact ⟨h.symm, hc.1, hc.2⟩

theorem mk3_some {oy om od : Option Nat} {p : Nat × Nat × Nat}
    (h : mk3 oy om od = some p) :
    ∃ y m d, oy = some y ∧ om = some m ∧ od = some d ∧ mkDate y m d = some p := by
  unfold mk3 at h
  split at h
  · rename_i y m d
    exact ⟨y, m, d, rfl, rfl, rfl, h⟩
  · cases h

theorem mk3_fields {oy om od : Option Nat} {y m d : Nat}
    (h : mk3 oy om od = some (y, m, d)) :
    oy = some y ∧ om = some m ∧ od = some d ∧ 1 ≤ y ∧ d ≤ daysInMonth y m := by
  obtain ⟨yv, mv, dv, h1, h2, h3, hmk⟩ := mk3_some h
  obtain ⟨hp, hy1, hdm⟩ := mkDate_some hmk
  obtain ⟨e1, e2, e3⟩ : y = yv ∧ m = mv ∧ d = dv := by
    simpa [Prod.ext_iff] using hp
  subst e1
  subst e2
  subst e3
  exact ⟨h1, h2, h3, hy1, hdm⟩

/-- Any successfully parsed date satisfies the `datetime` field bounds. -/
theorem parseDate_some {s : String} {y m d : Nat} (h : parseDate s = some (y, m, d)) :
    1 ≤ y ∧ y ≤ 9999 ∧ 1 ≤ m ∧ m ≤ 12 ∧ 1 ≤ d ∧ d ≤ daysInMonth y m := by
  unfold parseDate at h
  split at h
  · split_ifs at h
    obtain ⟨hy', hm', hd', hy1, hdm⟩ := mk3_fields h
    have hY := year4_some hy'
    have hM := num1_some hm'
    have hD := num1_some hd'
    exact ⟨hy1, hY, by omega, by omega, by omega, hdm⟩
  · split_ifs at h
    · obtain ⟨hy', hm', hd', hy1, hdm⟩ := mk3_fields h
      have hY := year4_some hy'
      have hM := num1_some hm'
      have hD := day2_some hd'
      exact ⟨hy1, hY, by omega, by omega, by omega, hdm⟩
    · obtain ⟨hy', hm', hd', hy1, hdm⟩ := mk3_fields h
      have hY := year4_some hy'
      have hM := month2_some hm'
      have hD := num1_some hd'
      exact ⟨hy1, hY, by omega, by omega, by omega, hdm⟩
  · split_ifs at h
    obtain ⟨hy', hm', hd', hy1, hdm⟩ := mk3_fields h
    have hY := year4_some hy'
    have hM := month2_some hm'
    have hD := day2_some hd'
    exact ⟨hy1, hY, by omega, by omega, by omega, hdm⟩
  · cases h

/-- A canonical (zero-padded, valid) date string parses back to its fields,
with the `datetime` field bounds. -/
theorem isPadded_parse {s : String} (h : isPadded s = true) :
    ∃ y m d, parseDate s = some (y, m, d) ∧ s.data = dateChars y m d ∧
      1 ≤ y ∧ y ≤ 9999 ∧ 1 ≤ m ∧ m ≤ 12 ∧ 1 ≤ d ∧ d ≤ daysInMonth y m := by
  unfold isPadded at h
  split at h
  · rename_i y m d heq
    have hb := parseDate_some heq
    exact ⟨y, m, d, heq, by simpa using h, hb.1, hb.2.1, hb.2.2.1, hb.2.2.2.1,
      hb.2.2.2.2.1, hb.2.2.2.2.2⟩
  · cases h

theorem isPadded_valid {s : String} (h : isPadded s = true) :
    validate_date s = true := by
  obtain ⟨y, m, d, heq, -⟩ := isPadded_parse h
  unfold validate_date
  rw [heq]
  rfl

/-! ### Printing a date and parsing it back -/

theorem parseDate_ten (a b c d g1 p q g2 e f : Char) :
    parseDate ⟨[a, b, c, d, g1, p, q, g2, e, f]⟩ =
      (if g1 = '-' ∧ q = '-' then none
       else if g1 = '-' ∧ g2 = '-' then mk3 (year4 a b c d) (month2 p q) (day2 e f)
       else none) := rfl

theorem digitChar_ne_dash {k : Nat} (h : k ≤ 9) : digitChar k ≠ '-' := by
  intro he
  have h1 := congrArg Char.toNat he
  rw [digitChar_toNat (by omega)] at h1
  have h2 : ('-').toNat = 45 := rfl
  omega

theorem digitVal_digitChar {k : Nat} (h : k ≤ 9) : digitVal (digitChar k) = some k := by
  unfold digitVal
  rw [digitChar_toNat (by omega), if_pos (by omega)]
  congr 1
  omega

theorem year4_digits {w x y z : Nat} (hw : w ≤ 9) (hx : x ≤ 9) (hy : y ≤ 9)
    (hz : z ≤ 9) :
    year4 (digitChar w) (digitChar x) (digitChar y) (digitChar z) =
      some (w * 1000 + x * 100 + y * 10 + z) := by
  unfold year4
  rw [digitVal_digitChar hw, digitVal_digitChar hx, digitVal_digitChar hy,
    digitVal_digitChar hz]

theorem month2_digits {m : Nat} (h1 : 1 ≤ m) (h2 : m ≤ 12) :
    month2 (digitChar (m / 10)) (digitChar (m % 10)) = some m := by
  interval_cases m <;> decide

theorem day2_digits {d : Nat} (h1 : 1 ≤ d) (h2 : d ≤ 31) :
    day2 (digitChar (d / 10)) (digitChar (d % 10)) = some d := by
  interval_cases d <;> decide

theorem parse_dateChars {y m d : Nat} (hy1 : 1 ≤ y) (hy2 : y ≤ 9999) (hm1 : 1 ≤ m)
    (hm2 : m ≤ 12) (hd1 : 1 ≤ d) (hd2 : d ≤ daysInMonth y m) :
    parseDate ⟨dateChars y m d⟩ = some (y, m, d) := by
  have e : (⟨dateChars y m d⟩ : String) =
      ⟨[digitChar (y / 100 / 10), digitChar (y / 100 % 10), digitChar (y % 100 / 10),
        digitChar (y % 100 % 10), '-', digitChar (m / 10), digitChar (m % 10), '-',
        digitChar (d / 10), digitChar (d % 10)]⟩ := rfl
  rw [e, parseDate_ten,
    if_neg (fun hc => digitChar_ne_dash (by omega) hc.2),
    if_pos ⟨rfl, rfl⟩,
    year4_digits (by omega) (by omega) (by omega) (by omega),
    month2_digits hm1 hm2, day2_digits hd1 (by
      have := daysInMonth_le y m
      omega)]
  have ey : y / 100 / 10 * 1000 + y / 100 % 10 * 100 + y % 100 / 10 * 10 + y % 100 % 10 = y := by
    omega
  rw [ey]
  show mkDate y m d = some (y, m, d)
  unfold mkDate
  rw [if_pos ⟨hy1, hd2⟩]

/-- A printed valid date is canonical. -/
theorem isPadded_dateChars {y m d : Nat} (hy1 : 1 ≤ y) (hy2 : y ≤ 9999) (hm1 : 1 ≤ m)
    (hm2 : m ≤ 12) (hd1 : 1 ≤ d) (hd2 : d ≤ daysInMonth y m) :
    isPadded ⟨dateChars y m d⟩ = true := by
  unfold isPadded
  rw [parse_dateChars hy1 hy2 hm1 hm2 hd1 hd2]
  simp

/-! ### Sorting by descending date -/

instance : IsTotal Txn dateDescOrder :=
  ⟨fun a b => goLe_total b.date.data a.date.data⟩

instance : IsTrans Txn dateDescOrder :=
  ⟨fun _ _ _ h1 h2 => goLe_trans h2 h1⟩

theorem get_transactions_perm (db : DB) (u : Nat) (tyf sdf edf : Option String) :
    (get_transactions db u tyf sdf edf).Perm
      (db.transactions.filter (txMatch u tyf sdf edf)) :=
  List.perm_insertionSort _ _

theorem get_transactions_sorted (db : DB) (u : Nat) (tyf sdf edf : Option String) :
    List.Sorted dateDescOrder (get_transactions db u tyf sdf edf) :=
  List.sorted_insertionSort _ _

/-! ### Aggregation helpers -/

theorem sumRows_match (l : List Rat) :
    (match sumRows l with | some v => v | none => 0) = l.sum := by
  unfold sumRows
  by_cases h : l.isEmpty
  · rw [if_pos h]
    have e : l = [] := by simpa using h
    simp [e]
  · rw [if_neg h]

theorem dictAdd_keys (k : Nat) (v : Rat) (l : List (Nat × Rat)) :
    (dictAdd k v l).map Prod.fst = l.map Prod.fst := by
  induction l with
  | nil => rfl
  | cons p rest ih =>
    simp only [dictAdd]
    split_ifs with h <;> simp [ih]

/-- The running totals of the yearly-report loop: each processed
transaction with a parsable date adds its amount to the bucket of its
kind, and the dictionaries keep their keys. -/
theorem yearlyFold (l : List Txn) (hvalid : ∀ t ∈ l, validate_date t.date = true)
    (i e : Rat) (di de : List (Nat × Rat)) :
    (l.foldl yearlyStep (i, e, di, de)).1 =
        i + ((l.filter (fun t => t.ttype == "income")).map Txn.amount).sum ∧
      (l.foldl yearlyStep (i, e, di, de)).2.1 =
        e + ((l.filter (fun t => t.ttype == "expense")).map Txn.amount).sum ∧
      ((l.foldl yearlyStep (i, e, di, de)).2.2.1).map Prod.fst = di.map Prod.fst ∧
      ((l.foldl yearlyStep (i, e, di, de)).2.2.2).map Prod.fst = de.map Prod.fst := by
  induction l generalizing i e di de with
  | nil => simp
  | cons t ts ih =>
    have hv : validate_date t.date = true := hvalid t (by simp)
    have hrest : ∀ u ∈ ts, validate_date u.date = true := fun u hu =>
      hvalid u (by simp [hu])
    obtain ⟨⟨y, m, d⟩, hp⟩ : ∃ p, parseDate t.date = some p := by
      unfold validate_date at hv
      exact Option.isSome_iff_exists.mp hv
    simp only [List.foldl_cons, yearlyStep, hp]
    by_cases hti : t.ttype == "income"
    · have hti' : t.ttype = "income" := by simpa using hti
      rw [if_pos hti]
      obtain ⟨ih1, ih2, ih3, ih4⟩ := ih hrest (i + t.amount) e (dictAdd m t.amount di) de
      refine ⟨?_, ?_, ?_, ?_⟩
      · rw [ih1, List.filter_cons_of_pos (by simp [hti']), List.map_cons, List.sum_cons]
        ring
      · rw [ih2, List.filter_cons_of_neg (by simp [hti'])]
      · rw [ih3, dictAdd_keys]
      · rw [ih4]
    · by_cases hte : t.ttype == "expense"
      · have hte' : t.ttype = "expense" := by simpa using hte
        rw [if_neg hti, if_pos hte]
        obtain ⟨ih1, ih2, ih3, ih4⟩ := ih hrest i (e + t.amount) di (dictAdd m t.amount de)
        refine ⟨?_, ?_, ?_, ?_⟩
        · rw [ih1, List.filter_cons_of_neg (by simp [hte'])]
        · rw [ih2, List.filter_cons_of_pos (by simp [hte']), List.map_cons, List.sum_cons]
          ring
        · rw [ih3]
        · rw [ih4, dictAdd_keys]
      · rw [if_neg hti, if_neg hte]
        obtain ⟨ih1, ih2, ih3, ih4⟩ := ih hrest i e di de
        refine ⟨?_, ?_, ?_, ?_⟩
        · rw [ih1, List.filter_cons_of_neg (by simpa using hti)]
        · rw [ih2, List.filter_cons_of_neg (by simpa using hte)]
        · exact ih3
        · exact ih4

/-! ### The query ranges read as calendar predicates on canonical dates -/

theorem beq_int_nat {n : Nat} {i : Int} (h : 0 ≤ i) :
    ((n : Int) == i) = (n == i.toNat) := by
  rw [Bool.eq_iff_iff]
  simp only [beq_iff_eq]
  omega

/-- The non-December/December end strings both render the last day of the
month, for years `1000..9999`. -/
theorem startS_eq {Y : Int} (hY1 : 1000 ≤ Y) (hY2 : Y ≤ 9999) :
    (intStr Y ++ ['-', '0', '1', '-', '0', '1'] : List Char) = dateChars Y.toNat 1 1 := by
  rw [intStr_nonneg (by omega), natDigits_four (by omega) (by omega)]
  unfold dateChars
  have e1 : dig2 1 = ['0', '1'] := by decide
  rw [e1]
  simp

theorem endS_eq {Y : Int} (hY1 : 1000 ≤ Y) (hY2 : Y ≤ 9999) :
    (intStr Y ++ ['-', '1', '2', '-', '3', '1'] : List Char) = dateChars Y.toNat 12 31 := by
  rw [intStr_nonneg (by omega), natDigits_four (by omega) (by omega)]
  unfold dateChars
  have e1 : dig2 12 = ['1', '2'] := by decide
  have e2 : dig2 31 = ['3', '1'] := by decide
  rw [e1, e2]
  simp

/-- A valid date lies between 1 January and 31 December of year `Y` (in the
string order, all dates canonical) exactly when its year is `Y`. -/
theorem yearBetweenIff {Y y m d : Nat} (hY2 : Y ≤ 9999) (hy : y ≤ 9999) (hm1 : 1 ≤ m)
    (hm2 : m ≤ 12) (hd1 : 1 ≤ d) (hd2 : d ≤ daysInMonth y m) :
    (goLe (dateChars Y 1 1) (dateChars y m d) &&
      goLe (dateChars y m d) (dateChars Y 12 31)) = (y == Y) := by
  have hd31 : d ≤ 31 := le_trans hd2 (daysInMonth_le y m)
  have hd99 : d ≤ 99 := by omega
  have hm99 : m ≤ 99 := by omega
  unfold dateChars
  simp only [List.append_assoc, List.cons_append]
  simp only [fourDigLe hY2 hy, fourDigLe hy hY2, goLe_cons_same,
    twoDigLe (show (1 : Nat) ≤ 99 by omega) hm99,
    twoDigLe hm99 (show (12 : Nat) ≤ 99 by omega),
    twoDigLeNil (show (1 : Nat) ≤ 99 by omega) hd99,
    twoDigLeNil hd99 (show (31 : Nat) ≤ 99 by omega)]
  rw [Bool.eq_iff_iff]
  simp only [Bool.and_eq_true, beq_iff_eq]
  by_cases hyY : y = Y
  · subst hyY
    split_ifs <;> (try simp_all) <;> omega
  · split_ifs <;> (try simp_all) <;> omega

/-- On a canonical stored date, the expense query's WHERE clause is the
calendar predicate of the claims. -/
theorem expenseMatch_calendar (u : Nat) (c : String) {M Y : Int} (hM1 : 1 ≤ M)
    (hM2 : M ≤ 12) (hY1 : 1000 ≤ Y) (hY2 : Y ≤ 9999) (t : Txn)
    (hpad : isPadded t.date = true) :
    expenseMatch u c (monthStartChars M Y) (monthEndChars M Y) t =
      (t.user_id == u && t.ttype == "expense" && t.category == c &&
        dateInMonthB t.date M Y) := by
  obtain ⟨y, m, d, hp, hdata, hy1, hy9, hm1, hm12, hd1, hdm⟩ := isPadded_parse hpad
  unfold expenseMatch
  rw [monthStart_eq hM1 hM2 hY1 hY2, monthEnd_eq hM1 hM2 hY1 hY2, hdata]
  have hbet := betweenIff (Y := Y.toNat) (M := M.toNat)
      (L := daysInMonth Y.toNat M.toNat) (y := y) (m := m) (d := d)
      (by omega) (by omega)
      (by have := daysInMonth_le Y.toNat M.toNat; omega) hy9 (by omega) hd1
      (by have := daysInMonth_le y m; omega)
      (fun e1 e2 => by rw [← e1, ← e2]; exact hdm)
  rw [Bool.and_assoc, hbet]
  simp only [dateInMonthB, hp]
  rw [beq_int_nat (by omega), beq_int_nat (by omega)]

/-- On a canonical stored date, the yearly report's fetch range is the
calendar predicate "dated in year `Y`". -/
theorem txMatch_year (u : Nat) {Y : Int} (hY1 : 1000 ≤ Y) (hY2 : Y ≤ 9999) (t : Txn)
    (hpad : isPadded t.date = true) :
    txMatch u none (some ⟨intStr Y ++ ['-', '0', '1', '-', '0', '1']⟩)
        (some ⟨intStr Y ++ ['-', '1', '2', '-', '3', '1']⟩) t =
      (t.user_id == u && dateInYearB t.date Y) := by
  obtain ⟨y, m, d, hp, hdata, hy1, hy9, hm1, hm12, hd1, hdm⟩ := isPadded_parse hpad
  have hs : (⟨intStr Y ++ ['-', '0', '1', '-', '0', '1']⟩ : String) =
      ⟨dateChars Y.toNat 1 1⟩ := congrArg _ (startS_eq hY1 hY2)
  have he : (⟨intStr Y ++ ['-', '1', '2', '-', '3', '1']⟩ : String) =
      ⟨dateChars Y.toNat 12 31⟩ := congrArg _ (endS_eq hY1 hY2)
  have hvs : validate_date ⟨dateChars Y.toNat 1 1⟩ = true := by
    unfold validate_date
    rw [parse_dateChars (by omega) (by omega) (by omega) (by omega) (by omega)
      (by have := daysInMonth_ge Y.toNat 1; omega)]
    rfl
  have hve : validate_date ⟨dateChars Y.toNat 12 31⟩ = true := by
    unfold validate_date
    rw [parse_dateChars (by omega) (by omega) (by omega) (by omega) (by omega)
      (by have := daysInMonth_twelve Y.toNat; omega)]
    rfl
  simp only [txMatch]
  rw [hs, he, if_pos hvs, if_pos hve]
  unfold strLeB
  rw [show (⟨dateChars Y.toNat 1 1⟩ : String).data = dateChars Y.toNat 1 1 from rfl,
    show (⟨dateChars Y.toNat 12 31⟩ : String).data = dateChars Y.toNat 12 31 from rfl,
    hdata]
  have hbet := yearBetweenIff (Y := Y.toNat) (y := y) (m := m) (d := d)
    (by omega) hy9 hm1 hm12 hd1 hdm
  rw [Bool.and_true, Bool.and_assoc, hbet]
  simp only [dateInYearB, hp]
  rw [beq_int_nat (by omega)]

/-- Function `get_expenses_for_category_in_month` is the sum over the rows matched by
its WHERE clause (the NULL-sum guard yields 0 on the empty set). -/
theorem spent_eq_sum (db : DB) (u : Nat) (c : String) (month year : Int) :
    get_expenses_for_category_in_month db u c month year =
      ((db.transactions.filter (expenseMatch u c (monthStartChars month year)
        (monthEndChars month year))).map Txn.amount).sum :=
  sumRows_match _

/-! ### Example databases used for concrete witnesses and counterexamples -/

def egDB : DB := ⟨[1], [], [], 1⟩

def db3 : DB := ⟨[1], [⟨1, 1, "income", "Salary", 100, "2024-01-05", "x"⟩], [], 2⟩

def db5 : DB :=
  ⟨[1], [⟨1, 1, "expense", "Food", 120, "2024-03-10", ""⟩], [⟨1, "Food", 100, 3, 2024⟩], 2⟩

/-! ### C1 -/

/-- C1: `add_transaction` succeeds iff the kind is `income` or `expense`,
the category belongs to the kind's fixed set, the amount is positive and the
date string parses as a valid calendar date; on success the new transaction
is stored and retrievable by `get_transactions` for that user with the given
kind, category, amount, date and description. -/
theorem C1_add_validates_and_persists (db : DB) (u : Nat) (ty cat : String)
    (amt : Rat) (ds de : String) :
    ((add_transaction db u ty cat amt ds de).1 = true ↔
      (ty ∈ transaction_types ∧ cat ∈ categoriesFor ty ∧ 0 < amt ∧
        validate_date ds = true)) ∧
    ((add_transaction db u ty cat amt ds de).1 = true →
      ∃ t ∈ get_transactions (add_transaction db u ty cat amt ds de).2 u none none none,
        t.ttype = ty ∧ t.category = cat ∧ t.amount = amt ∧ t.date = ds ∧
          t.description = de) := by
  have hiff : (add_transaction db u ty cat amt ds de).1 = true ↔
      (ty ∈ transaction_types ∧ cat ∈ categoriesFor ty ∧ 0 < amt ∧
        validate_date ds = true) := by
    unfold add_transaction
    split_ifs with h1 h2 h3 h4 <;> simp_all [not_lt, not_le]
  refine ⟨hiff, fun hs => ?_⟩
  obtain ⟨h1, h2, h3, h4⟩ := hiff.mp hs
  have hdb : (add_transaction db u ty cat amt ds de).2.transactions =
      db.transactions ++ [⟨db.nextTxnId, u, ty, cat, amt, ds, de⟩] := by
    unfold add_transaction
    rw [if_neg (by simpa using h1), if_neg (by simpa using h2),
      if_neg (not_le.mpr h3), if_neg (by simpa using h4)]
  refine ⟨⟨db.nextTxnId, u, ty, cat, amt, ds, de⟩, ?_, rfl, rfl, rfl, rfl, rfl⟩
  have hperm := get_transactions_perm (add_transaction db u ty cat amt ds de).2
    u none none none
  rw [hperm.mem_iff, List.mem_filter, hdb]
  exact ⟨by simp, by simp [txMatch]⟩

theorem C1_witness :
    ((add_transaction egDB 1 "income" "Salary" 5 "2024-01-02" "pay").1 = true ↔
      ("income" ∈ transaction_types ∧ "Salary" ∈ categoriesFor "income" ∧
        (0 : Rat) < 5 ∧ validate_date "2024-01-02" = true)) ∧
    ∃ t ∈ get_transactions (add_transaction egDB 1 "income" "Salary" 5
        "2024-01-02" "pay").2 1 none none none,
      t.ttype = "income" ∧ t.category = "Salary" ∧ t.amount = 5 ∧
        t.date = "2024-01-02" ∧ t.description = "pay" := by
  have h := C1_add_validates_and_persists egDB 1 "income" "Salary" 5 "2024-01-02" "pay"
  exact ⟨h.1, h.2 (by decide)⟩

/-! ### C3 -/

/-- C3: `update_transaction` with a kind different from the stored kind
fails and leaves the database (in particular the stored record) unchanged;
moreover no call of `update_transaction` ever changes the kind (or the id)
of any stored transaction. -/
theorem C3_update_kind_immutable (db : DB) (u tid : Nat) (ty cat : String)
    (amt : Rat) (ds de : String) :
    (∀ t, findTxn db tid u = some t → t.ttype ≠ ty →
      update_transaction db u tid ty cat amt ds de = (false, db)) ∧
    ((update_transaction db u tid ty cat amt ds de).2.transactions.map
        (fun t => (t.id, t.ttype)) =
      db.transactions.map (fun t => (t.id, t.ttype))) := by
  constructor
  · intro t hf hty
    simp only [update_transaction, hf]
    rw [if_pos hty]
  · cases hf : findTxn db tid u with
    | none => simp only [update_transaction, hf]
    | some t =>
      simp only [update_transaction, hf]
      split_ifs <;> try rfl
      simp only [List.map_map]
      refine List.map_congr_left (fun a _ => ?_)
      simp only [Function.comp_apply]
      split_ifs <;> rfl

theorem C3_witness :
    update_transaction db3 1 1 "expense" "Food" 50 "2024-02-02" "" = (false, db3) := by
  have h := C3_update_kind_immutable db3 1 1 "expense" "Food" 50 "2024-02-02" ""
  exact h.1 ⟨1, 1, "income", "Salary", 100, "2024-01-05", "x"⟩ (by decide) (by decide)

/-! ### C5 -/

/-- C5: `check_budget_exceeded` returns an entry `(category, spent,
budgeted, overBy)` exactly when a budget row with that amount is stored for
`(user, category, month, year)` and the spent amount strictly exceeds it,
with `overBy = spent - budgeted`; with no budgets stored for the period it
returns the empty list. -/
theorem C5_exceeded_iff (db : DB) (u : Nat) (month year : Int) :
    (∀ (cat : String) (s b o : Rat),
      ((cat, s, b, o) ∈ check_budget_exceeded db u month year ↔
        (∃ br ∈ db.budgets, br.user_id = u ∧ br.category = cat ∧
          br.month = month ∧ br.year = year ∧ br.amount = b) ∧
        s = get_expenses_for_category_in_month db u cat month year ∧ b < s ∧
        o = s - b)) ∧
    ((∀ br ∈ db.budgets, ¬(br.user_id = u ∧ br.month = month ∧ br.year = year)) →
      check_budget_exceeded db u month year = []) := by
  constructor
  · intro cat s b o
    unfold check_budget_exceeded
    simp only [List.mem_filterMap, List.mem_filter]
    constructor
    · rintro ⟨br, ⟨hmem, hkey⟩, hf⟩
      split_ifs at hf with hlt
      simp only [Option.some.injEq, Prod.mk.injEq] at hf
      obtain ⟨e1, e2, e3, e4⟩ := hf
      subst e1
      subst e2
      subst e3
      subst e4
      simp only [Bool.and_eq_true, beq_iff_eq] at hkey
      exact ⟨⟨br, hmem, hkey.1.1, rfl, hkey.1.2, hkey.2, rfl⟩, rfl, hlt, rfl⟩
    · rintro ⟨⟨br, hmem, hu, hc, hm, hy, hb⟩, hs, hlt, ho⟩
      refine ⟨br, ⟨hmem, by simp [hu, hm, hy]⟩, ?_⟩
      subst hc
      subst hb
      subst hs
      subst ho
      rw [if_pos hlt]
  · intro hnone
    unfold check_budget_exceeded
    have he : db.budgets.filter (fun b =>
        b.user_id == u && b.month == month && b.year == year) = [] := by
      rw [List.filter_eq_nil_iff]
      intro br hbr
      have := hnone br hbr
      simp only [Bool.and_eq_true, beq_iff_eq]
      tauto
    rw [he]
    rfl

theorem C5_witness :
    ("Food", (120 : Rat), (100 : Rat), (20 : Rat)) ∈
      check_budget_exceeded db5 1 3 2024 ∧
    check_budget_exceeded egDB 1 3 2024 = [] := by
  have hspent : get_expenses_for_category_in_month db5 1 "Food" 3 2024 = 120 := by
    rw [spent_eq_sum,
      show (db5.transactions.filter (expenseMatch 1 "Food" (monthStartChars 3 2024)
        (monthEndChars 3 2024))).map Txn.amount = [120] from by decide]
    simp
  constructor
  · exact ((C5_exceeded_iff db5 1 3 2024).1 "Food" 120 100 20).mpr
      ⟨⟨⟨1, "Food", 100, 3, 2024⟩, by decide, rfl, rfl, rfl, rfl, rfl⟩,
        hspent.symm, by norm_num, by norm_num⟩
  · exact (C5_exceeded_iff egDB 1 3 2024).2 (by simp [egDB])

/-! ### C7 -/

/-- C7: `delete_transaction` succeeds exactly when a transaction with the
given id owned by the user exists; when none exists it reports failure and
leaves the database unchanged; it only ever removes the rows with that id
and owner. -/
theorem C7_delete_not_found (db : DB) (u tid : Nat) :
    ((delete_transaction db u tid).1 = true ↔
      ∃ t ∈ db.transactions, t.id = tid ∧ t.user_id = u) ∧
    ((∀ t ∈ db.transactions, ¬(t.id = tid ∧ t.user_id = u)) →
      delete_transaction db u tid = (false, db)) ∧
    ((delete_transaction db u tid).2.transactions =
      db.transactions.filter (fun t => !(t.id == tid && t.user_id == u))) := by
  refine ⟨?_, ?_, rfl⟩
  · unfold delete_transaction
    simp only [List.any_eq_true, Bool.and_eq_true, beq_iff_eq]
  · intro hnone
    unfold delete_transaction
    have h1 : db.transactions.any (fun t => t.id == tid && t.user_id == u) = false := by
      rw [Bool.eq_false_iff]
      intro hc
      rw [List.any_eq_true] at hc
      obtain ⟨t, ht, hp⟩ := hc
      simp only [Bool.and_eq_true, beq_iff_eq] at hp
      exact hnone t ht hp
    have h2 : db.transactions.filter (fun t => !(t.id == tid && t.user_id == u)) =
        db.transactions := by
      rw [List.filter_eq_self]
      intro t ht
      simp only [Bool.not_eq_true', Bool.and_eq_true, beq_iff_eq]
      rw [Bool.eq_false_iff]
      intro hc
      simp only [Bool.and_eq_true, beq_iff_eq] at hc
      exact hnone t ht hc
    rw [h1, h2]

theorem C7_witness : delete_transaction db3 1 99 = (false, db3) := by
  have h := C7_delete_not_found db3 1 99
  exact h.2.1 (by decide)

/-! ### C10 -/

/-- C10: when no stored transaction matches the expense query, the SQL
`SUM` aggregate is NULL and the guard maps it to `0.0`. -/
theorem C10_empty_sum (db : DB) (u : Nat) (c : String) (month year : Int)
    (h : ∀ t ∈ db.transactions,
      expenseMatch u c (monthStartChars month year) (monthEndChars month year) t
        = false) :
    get_expenses_for_category_in_month db u c month year = 0 := by
  rw [spent_eq_sum]
  have he : db.transactions.filter
      (expenseMatch u c (monthStartChars month year) (monthEndChars month year)) = [] := by
    rw [List.filter_eq_nil_iff]
    intro t ht
    rw [h t ht]
    simp
  rw [he]
  rfl

theorem C10_witness : get_expenses_for_category_in_month egDB 1 "Food" 2 2024 = 0 := by
  exact C10_empty_sum egDB 1 "Food" 2 2024 (by simp [egDB])

/-! ### C4 -/

theorem filter_not_filter (key : BudgetRow → Bool) (l : List BudgetRow) :
    (l.filter (fun b => !key b)).filter key = [] := by
  rw [List.filter_filter, List.filter_eq_nil_iff]
  intro a _
  cases h : key a <;> simp [h]

theorem find?_filter_not_append (key : BudgetRow → Bool) (l : List BudgetRow)
    (b : BudgetRow) (hb : key b = true) :
    ((l.filter (fun x => !key x)) ++ [b]).find? key = some b := by
  induction l with
  | nil => simp [List.find?, hb]
  | cons x xs ih =>
    by_cases h : key x = true
    · rw [List.filter_cons_of_neg (by simp [h])]
      exact ih
    · rw [List.filter_cons_of_pos (by simp [h]), List.cons_append]
      simp only [List.find?]
      rw [show key x = false from by simpa using h]
      exact ih

def db4 : DB := ⟨[7], [], [], 1⟩

/-- C4: for a valid expense category, nonnegative amount, month `1..12`,
year `1900..2100` and an existing user, `set_budget` succeeds and upserts on
the key `(user, category, month, year)`: two calls with the same key leave
exactly one row for the key, holding the latest amount, which `get_budget`
then returns; `get_budget` of a key with no row returns `0.0`. -/
theorem C4_budget_upsert (db : DB) (u : Nat) (cat : String) (a1 a2 : Rat) (m y : Int)
    (hc : cat ∈ expenseCategories) (h1 : 0 ≤ a1) (h2 : 0 ≤ a2)
    (hm1 : 1 ≤ m) (hm2 : m ≤ 12) (hy1 : 1900 ≤ y) (hy2 : y ≤ 2100)
    (hu : u ∈ db.users) :
    (set_budget db u cat a1 m y).1 = true ∧
    (set_budget (set_budget db u cat a1 m y).2 u cat a2 m y).1 = true ∧
    (set_budget (set_budget db u cat a1 m y).2 u cat a2 m y).2.budgets.filter
        (budgetKey u cat m y) = [⟨u, cat, a2, m, y⟩] ∧
    get_budget (set_budget (set_budget db u cat a1 m y).2 u cat a2 m y).2 u cat m y
      = a2 ∧
    (∀ (db' : DB) (u' : Nat) (cat' : String) (m' y' : Int),
      (∀ br ∈ db'.budgets, budgetKey u' cat' m' y' br = false) →
      get_budget db' u' cat' m' y' = 0) := by
  have hsucc : ∀ (d : DB), u ∈ d.users → ∀ a : Rat, 0 ≤ a →
      set_budget d u cat a m y = (true, { d with
        budgets := d.budgets.filter (fun b => !budgetKey u cat m y b) ++ [⟨u, cat, a, m, y⟩] }) := by
    intro d hud a ha
    unfold set_budget
    rw [if_neg (by simpa using hc), if_neg (not_lt.mpr ha), if_neg (by omega),
      if_neg (by simpa using hud)]
  have e1 : (set_budget db u cat a1 m y).2 = { db with
      budgets := db.budgets.filter (fun b => !budgetKey u cat m y b) ++ [⟨u, cat, a1, m, y⟩] } := by
    rw [hsucc db hu a1 h1]
  have hu1 : u ∈ (set_budget db u cat a1 m y).2.users := by
    rw [e1]
    exact hu
  have e2 : (set_budget (set_budget db u cat a1 m y).2 u cat a2 m y) =
      (true, { (set_budget db u cat a1 m y).2 with
        budgets := (set_budget db u cat a1 m y).2.budgets.filter (fun b => !budgetKey u cat m y b) ++ [⟨u, cat, a2, m, y⟩] }) :=
    hsucc _ hu1 a2 h2
  have hb2 : (set_budget (set_budget db u cat a1 m y).2 u cat a2 m y).2.budgets =
      (set_budget db u cat a1 m y).2.budgets.filter
        (fun b => !budgetKey u cat m y b) ++ [⟨u, cat, a2, m, y⟩] := by
    rw [e2]
  refine ⟨by rw [hsucc db hu a1 h1], by rw [e2], ?_, ?_, ?_⟩
  · rw [hb2, List.filter_append, filter_not_filter]
    simp [budgetKey]
  · unfold get_budget
    rw [hb2, find?_filter_not_append _ _ _ (by simp [budgetKey])]
  · intro dbx ux catx mx yx hall
    unfold get_budget
    rw [List.find?_eq_none.mpr (fun br hbr => by rw [hall br hbr]; simp)]

theorem C4_witness :
    (set_budget (set_budget db4 7 "Food" 100 3 2024).2 7 "Food" 50 3 2024).2.budgets.filter
        (budgetKey 7 "Food" 3 2024) = [⟨7, "Food", 50, 3, 2024⟩] ∧
    get_budget (set_budget (set_budget db4 7 "Food" 100 3 2024).2 7 "Food" 50
      3 2024).2 7 "Food" 3 2024 = 50 := by
  have h := C4_budget_upsert db4 7 "Food" 100 50 3 2024 (by decide) (by decide)
    (by decide) (by decide) (by decide) (by decide) (by decide) (by decide)
  exact ⟨h.2.2.1, h.2.2.2.1⟩

/-! ### C2 -/

def db2a : DB := (add_transaction egDB 1 "expense" "Food" 50 "0999-12-15" "").2

def db2b : DB := (add_transaction egDB 1 "expense" "Food" 50 "2024-2-1" "").2

/-- C2 counterexample: the claim fails at two inputs the validation accepts.
For year 999 the query bounds are the strings `999-12-01`/`999-12-31`
(`str(year)` is not zero-padded), which match no stored four-digit-year
date, so an expense of 50 dated `0999-12-15` yields `spentInMonth = 0`
although the claim demands 50.  Likewise a stored non-zero-padded date
`2024-2-1` falls outside the bounds `2024-02-01`..`2024-02-29`, so an
expense of 50 in February 2024 yields 0 although the claim demands 50. -/
theorem C2_counterexample :
    ((add_transaction egDB 1 "expense" "Food" 50 "0999-12-15" "").1 = true ∧
      parseDate "0999-12-15" = some (999, 12, 15) ∧
      get_expenses_for_category_in_month db2a 1 "Food" 12 999 = 0 ∧
      ((db2a.transactions.filter (fun t => t.user_id == 1 && t.ttype == "expense" &&
          t.category == "Food" && dateInMonthB t.date 12 999)).map Txn.amount).sum
        = 50) ∧
    ((add_transaction egDB 1 "expense" "Food" 50 "2024-2-1" "").1 = true ∧
      parseDate "2024-2-1" = some (2024, 2, 1) ∧
      get_expenses_for_category_in_month db2b 1 "Food" 2 2024 = 0 ∧
      ((db2b.transactions.filter (fun t => t.user_id == 1 && t.ttype == "expense" &&
          t.category == "Food" && dateInMonthB t.date 2 2024)).map Txn.amount).sum
        = 50) := by
  refine ⟨⟨by decide, by decide, ?_, ?_⟩, ⟨by decide, by decide, ?_, ?_⟩⟩
  · rw [spent_eq_sum, show (db2a.transactions.filter (expenseMatch 1 "Food"
      (monthStartChars 12 999) (monthEndChars 12 999))).map Txn.amount = []
      from by decide]
    rfl
  · rw [show (db2a.transactions.filter (fun t => t.user_id == 1 &&
      t.ttype == "expense" && t.category == "Food" &&
      dateInMonthB t.date 12 999)).map Txn.amount = [50] from by decide]
    simp
  · rw [spent_eq_sum, show (db2b.transactions.filter (expenseMatch 1 "Food"
      (monthStartChars 2 2024) (monthEndChars 2 2024))).map Txn.amount = []
      from by decide]
    rfl
  · rw [show (db2b.transactions.filter (fun t => t.user_id == 1 &&
      t.ttype == "expense" && t.category == "Food" &&
      dateInMonthB t.date 2 2024)).map Txn.amount = [50] from by decide]
    simp

/-- C2 (amended): for months `1..12`, years `1000..9999` and canonically
zero-padded stored dates, `get_expenses_for_category_in_month` equals the
sum of the user's expense amounts in the category whose calendar date lies
in the month — the end-of-month bound accounts for month length including
29 February in leap years, and the December day-31 literal agrees with the
first-of-next-month-minus-one-day rule (second conjunct). -/
theorem C2_spentInMonth_amended (db : DB) (u : Nat) (c : String) (month year : Int)
    (hM1 : 1 ≤ month) (hM2 : month ≤ 12) (hY1 : 1000 ≤ year) (hY2 : year ≤ 9999)
    (hdates : ∀ t ∈ db.transactions, isPadded t.date = true) :
    get_expenses_for_category_in_month db u c month year =
      ((db.transactions.filter (fun t => t.user_id == u && t.ttype == "expense" &&
        t.category == c && dateInMonthB t.date month year)).map Txn.amount).sum ∧
    (∀ yr : Nat, fmtYmd (predDate (yr + 1, 1, 1)) = dateChars yr 12 31) := by
  constructor
  · rw [spent_eq_sum, List.filter_congr (fun t ht =>
      expenseMatch_calendar u c hM1 hM2 hY1 hY2 t (hdates t ht))]
  · intro yr
    rw [predDate_january]
    rfl

def dbFeb : DB :=
  ⟨[1], [⟨1, 1, "expense", "Food", 50, "2024-02-01", ""⟩,
    ⟨2, 1, "expense", "Food", 30, "2024-02-29", ""⟩], [], 3⟩

theorem C2_witness :
    get_expenses_for_category_in_month dbFeb 1 "Food" 2 2024 =
      ((dbFeb.transactions.filter (fun t => t.user_id == 1 && t.ttype == "expense" &&
        t.category == "Food" && dateInMonthB t.date 2 2024)).map Txn.amount).sum ∧
    get_expenses_for_category_in_month dbFeb 1 "Food" 2 2024 = 80 := by
  have h := C2_spentInMonth_amended dbFeb 1 "Food" 2 2024 (by decide) (by decide)
    (by decide) (by decide) (by decide)
  refine ⟨h.1, ?_⟩
  rw [spent_eq_sum, show (dbFeb.transactions.filter (expenseMatch 1 "Food"
    (monthStartChars 2 2024) (monthEndChars 2 2024))).map Txn.amount = [50, 30]
    from by decide]
  norm_num

/-! ### C9 -/

def db9 : DB := (add_transaction egDB 1 "expense" "Food" 50 "2024-2-1" "").2

def db9s : DB :=
  ⟨[1], [⟨1, 1, "expense", "Food", 50, "2024-2-1", ""⟩,
    ⟨2, 1, "expense", "Food", 30, "2024-03-10", ""⟩], [], 3⟩

/-- C9: the date string "2024-2-1" is accepted by the validation (strptime
allows non-zero-padded fields), the persisted transaction is not counted by
`get_expenses_for_category_in_month` for its own month 2/2024 (the stored
string falls outside the zero-padded bounds in byte order), and it is
misplaced by the newest-first ordering: it sorts before "2024-03-10"
although 1 February 2024 is the older calendar date. -/
theorem C9_unpadded_date_mismatch :
    validate_date "2024-2-1" = true ∧
    (add_transaction egDB 1 "expense" "Food" 50 "2024-2-1" "").1 = true ∧
    parseDate "2024-2-1" = some (2024, 2, 1) ∧
    get_expenses_for_category_in_month db9 1 "Food" 2 2024 = 0 ∧
    (db9.transactions.filter (fun t => t.user_id == 1 && t.ttype == "expense" &&
      t.category == "Food" && dateInMonthB t.date 2 2024)).map Txn.amount = [50] ∧
    (get_transactions db9s 1 none none none).map Txn.date =
      ["2024-2-1", "2024-03-10"] ∧
    tripleVal (2024, 2, 1) < tripleVal (2024, 3, 10) := by
  refine ⟨by decide, by decide, by decide, ?_, by decide, by decide, by decide⟩
  rw [spent_eq_sum, show (db9.transactions.filter (expenseMatch 1 "Food"
    (monthStartChars 2 2024) (monthEndChars 2 2024))).map Txn.amount = []
    from by decide]
  rfl

/-! ### C6 -/

def db6 : DB :=
  ⟨[1], [⟨1, 1, "expense", "Food", 50, "2024-2-1", ""⟩,
    ⟨2, 1, "expense", "Food", 30, "2024-03-10", ""⟩], [], 3⟩

/-- C6 counterexample: `get_transactions` orders by descending byte order
of the stored date strings, which is not newest-calendar-date-first: the
transaction dated "2024-2-1" (1 February 2024, valid but not zero-padded)
is listed before the one dated "2024-03-10" although 10 March 2024 is
newer. -/
theorem C6_counterexample :
    (get_transactions db6 1 none none none).map Txn.date =
      ["2024-2-1", "2024-03-10"] ∧
    parseDate "2024-2-1" = some (2024, 2, 1) ∧
    parseDate "2024-03-10" = some (2024, 3, 10) ∧
    tripleVal (2024, 2, 1) < tripleVal (2024, 3, 10) ∧
    validate_date "2024-2-1" = true := by
  decide

/-- C6 (amended): `get_transactions` returns exactly the user's transactions
satisfying the conjunction of the valid supplied filters (a permutation of
the table filter), ordered by descending byte order of the date strings; an
invalid optional date filter is treated as absent rather than an error; and
whenever all stored dates are canonically zero-padded, the order is
newest-calendar-date-first. -/
theorem C6_list_amended (db : DB) (u : Nat) (tyf sdf edf : Option String) :
    (get_transactions db u tyf sdf edf).Perm
      (db.transactions.filter (txMatch u tyf sdf edf)) ∧
    List.Sorted dateDescOrder (get_transactions db u tyf sdf edf) ∧
    (∀ sd, validate_date sd = false →
      get_transactions db u tyf (some sd) edf = get_transactions db u tyf none edf) ∧
    (∀ ed, validate_date ed = false →
      get_transactions db u tyf sdf (some ed) = get_transactions db u tyf sdf none) ∧
    ((∀ t ∈ db.transactions, isPadded t.date = true) →
      List.Pairwise (fun a b => calNewerEq a.date b.date = true)
        (get_transactions db u tyf sdf edf)) := by
  refine ⟨get_transactions_perm db u tyf sdf edf,
    get_transactions_sorted db u tyf sdf edf, ?_, ?_, ?_⟩
  · intro sd h
    unfold get_transactions
    rw [show txMatch u tyf (some sd) edf = txMatch u tyf none edf from
      funext (fun t => by simp [txMatch, h])]
  · intro ed h
    unfold get_transactions
    rw [show txMatch u tyf sdf (some ed) = txMatch u tyf sdf none from
      funext (fun t => by simp [txMatch, h])]
  · intro hpad
    refine (get_transactions_sorted db u tyf sdf edf).imp_of_mem ?_
    intro a b ha hb hab
    have ha' : a ∈ db.transactions :=
      (List.mem_filter.mp
        ((get_transactions_perm db u tyf sdf edf).mem_iff.mp ha)).1
    have hb' : b ∈ db.transactions :=
      (List.mem_filter.mp
        ((get_transactions_perm db u tyf sdf edf).mem_iff.mp hb)).1
    obtain ⟨ya, ma, da, hpa, hdataa, _, hya9, hma1, hma12, hda1, hdma⟩ :=
      isPadded_parse (hpad a ha')
    obtain ⟨yb, mb, dayb, hpb, hdatab, _, hyb9, hmb1, hmb12, hdb1, hdmb⟩ :=
      isPadded_parse (hpad b hb')
    unfold dateDescOrder strLeB at hab
    rw [hdataa, hdatab] at hab
    simp only [calNewerEq, hpa, hpb, decide_eq_true_eq]
    exact (canonLe_iff hyb9 (by omega)
      (by have := daysInMonth_le yb mb; omega) hya9 (by omega)
      (by have := daysInMonth_le ya ma; omega)).mp hab

def db6w : DB := ⟨[1], [⟨1, 1, "income", "Salary", 10, "2024-05-05", ""⟩], [], 2⟩

theorem C6_witness :
    get_transactions db6w 1 none (some "bad") none =
      get_transactions db6w 1 none none none ∧
    List.Pairwise (fun a b => calNewerEq a.date b.date = true)
      (get_transactions db6w 1 none none none) := by
  have h := C6_list_amended db6w 1 none none none
  exact ⟨h.2.2.1 "bad" (by decide), h.2.2.2.2 (by decide)⟩

/-! ### C8 -/

def db8 : DB := (add_transaction egDB 1 "income" "Salary" 100 "2024-9-5" "").2

/-- C8 counterexample: the yearly report does not aggregate exactly the
transactions dated in `[2024-01-01, 2024-12-31]`: an income of 100 dated
"2024-9-5" (a valid, non-zero-padded string whose calendar date lies in
2024) is excluded by the byte-order range filter, so the reported annual
income is 0 where the claim demands 100. -/
theorem C8_counterexample :
    (add_transaction egDB 1 "income" "Salary" 100 "2024-9-5" "").1 = true ∧
    dateInYearB "2024-9-5" 2024 = true ∧
    (generate_yearly_report db8 1 2024).total_income_year = 0 ∧
    ((db8.transactions.filter (fun t => t.user_id == 1 && t.ttype == "income" &&
      dateInYearB t.date 2024)).map Txn.amount).sum = 100 := by
  refine ⟨by decide, by decide, by decide, ?_⟩
  rw [show (db8.transactions.filter (fun t => t.user_id == 1 &&
    t.ttype == "income" && dateInYearB t.date 2024)).map Txn.amount = [100]
    from by decide]
  simp

/-- C8 (amended): for years `1000..9999` and canonically zero-padded stored
dates, the yearly report aggregates exactly the user's transactions whose
calendar date lies in the year, always produces the twelve month buckets
`1..12` for income and expense (even with no transactions), and its annual
totals satisfy `net savings = total income - total expense`. -/
theorem C8_yearly_amended (db : DB) (u : Nat) (year : Int) (hY1 : 1000 ≤ year)
    (hY2 : year ≤ 9999) (hdates : ∀ t ∈ db.transactions, isPadded t.date = true) :
    (generate_yearly_report db u year).total_income_year =
      ((db.transactions.filter (fun t => t.user_id == u && t.ttype == "income" &&
        dateInYearB t.date year)).map Txn.amount).sum ∧
    (generate_yearly_report db u year).total_expense_year =
      ((db.transactions.filter (fun t => t.user_id == u && t.ttype == "expense" &&
        dateInYearB t.date year)).map Txn.amount).sum ∧
    (generate_yearly_report db u year).income_by_month.map Prod.fst =
      [1, 2, 3, 4, 5, 6, 7, 8, 9, 10, 11, 12] ∧
    (generate_yearly_report db u year).expense_by_month.map Prod.fst =
      [1, 2, 3, 4, 5, 6, 7, 8, 9, 10, 11, 12] ∧
    (generate_yearly_report db u year).annual_savings =
      (generate_yearly_report db u year).total_income_year -
        (generate_yearly_report db u year).total_expense_year := by
  have hvalid : ∀ t ∈ get_transactions db u none
      (some ⟨intStr year ++ ['-', '0', '1', '-', '0', '1']⟩)
      (some ⟨intStr year ++ ['-', '1', '2', '-', '3', '1']⟩), validate_date t.date = true := by
    intro t ht
    exact isPadded_valid (hdates t ((List.mem_filter.mp
      ((get_transactions_perm db u none _ _).mem_iff.mp ht)).1))
  have hfold := yearlyFold (get_transactions db u none
      (some ⟨intStr year ++ ['-', '0', '1', '-', '0', '1']⟩)
      (some ⟨intStr year ++ ['-', '1', '2', '-', '3', '1']⟩)) hvalid 0 0
      initMonths initMonths
  have hsum : ∀ ty : String,
      (((get_transactions db u none
        (some ⟨intStr year ++ ['-', '0', '1', '-', '0', '1']⟩)
        (some ⟨intStr year ++ ['-', '1', '2', '-', '3', '1']⟩)).filter
          (fun t => t.ttype == ty)).map Txn.amount).sum =
      ((db.transactions.filter (fun t => t.user_id == u && t.ttype == ty &&
        dateInYearB t.date year)).map Txn.amount).sum := by
    intro ty
    rw [(((get_transactions_perm db u none _ _).filter
      (fun t => t.ttype == ty)).map Txn.amount).sum_eq, List.filter_filter]
    have hpoint : ∀ t ∈ db.transactions,
        ((t.ttype == ty) && txMatch u none
          (some ⟨intStr year ++ ['-', '0', '1', '-', '0', '1']⟩)
          (some ⟨intStr year ++ ['-', '1', '2', '-', '3', '1']⟩) t) =
        (t.user_id == u && t.ttype == ty && dateInYearB t.date year) := by
      intro t ht
      rw [txMatch_year u hY1 hY2 t (hdates t ht), Bool.eq_iff_iff]
      simp only [Bool.and_eq_true]
      tauto
    rw [List.filter_congr hpoint]
  refine ⟨?_, ?_, ?_, ?_, rfl⟩
  · show ((get_transactions db u none
      (some ⟨intStr year ++ ['-', '0', '1', '-', '0', '1']⟩)
      (some ⟨intStr year ++ ['-', '1', '2', '-', '3', '1']⟩)).foldl yearlyStep
        (0, 0, initMonths, initMonths)).1 = _
    rw [hfold.1, zero_add, hsum "income"]
  · show ((get_transactions db u none
      (some ⟨intStr year ++ ['-', '0', '1', '-', '0', '1']⟩)
      (some ⟨intStr year ++ ['-', '1', '2', '-', '3', '1']⟩)).foldl yearlyStep
        (0, 0, initMonths, initMonths)).2.1 = _
    rw [hfold.2.1, zero_add, hsum "expense"]
  · show (((get_transactions db u none
      (some ⟨intStr year ++ ['-', '0', '1', '-', '0', '1']⟩)
      (some ⟨intStr year ++ ['-', '1', '2', '-', '3', '1']⟩)).foldl yearlyStep
        (0, 0, initMonths, initMonths)).2.2.1).map Prod.fst = _
    rw [hfold.2.2.1]
    decide
  · show (((get_transactions db u none
      (some ⟨intStr year ++ ['-', '0', '1', '-', '0', '1']⟩)
      (some ⟨intStr year ++ ['-', '1', '2', '-', '3', '1']⟩)).foldl yearlyStep
        (0, 0, initMonths, initMonths)).2.2.2).map Prod.fst = _
    rw [hfold.2.2.2]
    decide

def db8w : DB :=
  ⟨[1], [⟨1, 1, "income", "Salary", 1000, "2024-01-05", ""⟩,
    ⟨2, 1, "expense", "Food", 400, "2024-03-05", ""⟩], [], 3⟩

theorem C8_witness :
    (generate_yearly_report db8w 1 2024).total_income_year = 1000 ∧
    (generate_yearly_report db8w 1 2024).total_expense_year = 400 ∧
    (generate_yearly_report db8w 1 2024).income_by_month.map Prod.fst =
      [1, 2, 3, 4, 5, 6, 7, 8, 9, 10, 11, 12] ∧
    (generate_yearly_report db8w 1 2024).annual_savings = 600 := by
  have h := C8_yearly_amended db8w 1 2024 (by decide) (by decide) (by decide)
  have hI : (generate_yearly_report db8w 1 2024).total_income_year = 1000 := by
    rw [h.1, show (db8w.transactions.filter (fun t => t.user_id == 1 &&
      t.ttype == "income" && dateInYearB t.date 2024)).map Txn.amount = [1000]
      from by decide]
    simp
  have hE : (generate_yearly_report db8w 1 2024).total_expense_year = 400 := by
    rw [h.2.1, show (db8w.transactions.filter (fun t => t.user_id == 1 &&
      t.ttype == "expense" && dateInYearB t.date 2024)).map Txn.amount = [400]
      from by decide]
    simp
  refine ⟨hI, hE, h.2.2.1, ?_⟩
  rw [h.2.2.2.2, hI, hE]
  norm_num

end Finance
